import Mathlib

/-!
Shallow embedding of the survey-CSV-to-DXF conversion pipeline
(source: XML_to_DXF.py).  Pure fragments of the program (the regex-based
code classifier, the CSV row ingester, the feature-library table builder,
the layer resolver, and the control flow of the DXF emission stage) are
translated into executable Lean definitions; exceptions are modelled with
`Except`, Python dictionaries with insertion-ordered association lists,
and the CSV/XML inputs with lists.  Character classes are taken over
ASCII, matching the explicit ranges in the source regex; numeric
conversion of coordinate fields (Python `float(...)`) is abstracted as an
opaque string payload, since coordinate arithmetic is outside the
embedded fragment.
-/

/-- ASCII letter, the class `[a-zA-Z]` of the source regex. -/
def chLet (c : Char) : Bool :=
  (65 ≤ c.toNat && c.toNat ≤ 90) || (97 ≤ c.toNat && c.toNat ≤ 122)

/-- ASCII digit, the class `\d` / `[0-9]` of the source regex. -/
def chDig (c : Char) : Bool :=
  48 ≤ c.toNat && c.toNat ≤ 57

/-- The interior class `[a-z_A-Z0-9]` of the source regex: letters, digits
and the underscore. -/
def chMid (c : Char) : Bool :=
  chLet c || chDig c || c.toNat == 95

/-- Numeric value of a digit run, as Python `int` reads it (so `"007"` is `7`). -/
def digitsVal (cs : List Char) : Nat :=
  cs.foldl (fun a c => a * 10 + (c.toNat - 48)) 0

/-- Shape of group 1 of the pattern `([a-zA-Z]+[a-z_A-Z0-9]*[a-zA-Z])`:
at least two characters, first and last letters, interior in `chMid`. -/
def baseOk (g : List Char) : Bool :=
  2 ≤ g.length &&
  (match g.head? with | some c => chLet c | none => false) &&
  (match g.getLast? with | some c => chLet c | none => false) &&
  g.all chMid

/-- Greedy-match decomposition of `re.match(r"([a-zA-Z]+[a-z_A-Z0-9]*[a-zA-Z])(\d+)?$", s)`
on a character list: group 2 is the maximal trailing digit run (group 1 must end
in a letter, so no shorter run can be chosen), group 1 is the rest. -/
def matchChars (cs : List Char) : Option (List Char × Option Nat) :=
  let ds := (cs.reverse.takeWhile chDig).reverse
  let g1 := cs.take (cs.length - ds.length)
  if baseOk g1 then some (g1, if ds.isEmpty then none else some (digitsVal ds)) else none

/-- Python `$` also matches just before a single newline at the very end of the
string; a string ending in a newline can only match with the newline excluded. -/
def stripNl (cs : List Char) : List Char :=
  if cs.getLast? == some (Char.ofNat 10) then cs.dropLast else cs

/-- Result of `re.match(pattern, input_string)` in `process_code`: `none` when the
token does not match, otherwise the base-code group and the optional trailing
integer group. -/
def pyMatch (s : String) : Option (String × Option Nat) :=
  (matchChars (stripNl s.data)).map (fun p => (String.mk p.1, p.2))

/-- Python value held by the `differentiator` / `sequence` slot: either an
integer or the literal `False` the source initialises it with.  As a dict key
Python equates `False` with `0`, which `norm` captures. -/
inductive PySeq where
  | int : Int → PySeq
  | falseV : PySeq
deriving DecidableEq, Repr

/-- Python key-equality normal form: `False == 0`. -/
def PySeq.norm : PySeq → Int
  | .int n => n
  | .falseV => 0

/-- Python `==` on sequence keys (dict key equality). -/
def pySeqBeq (a b : PySeq) : Bool := a.norm == b.norm

/-- Python `f"{sequence}"`. -/
def natDigits : Nat → Nat → List Char
  | 0, _ => []
  | fuel+1, n =>
    if n < 10 then [Char.ofNat (48 + n)]
    else natDigits fuel (n / 10) ++ [Char.ofNat (48 + n % 10)]

/-- Decimal rendering of a natural number, as Python `str`. -/
def natStr (n : Nat) : String := String.mk (natDigits (n+1) n)

/-- Decimal rendering of an integer, as Python `str`. -/
def intStr : Int → String
  | .ofNat m => natStr m
  | .negSucc m => "-" ++ natStr (m+1)

/-- Python string interpolation of the sequence slot (`f"{sequence}"`):
`False` prints as `"False"`. -/
def pySeqStr : PySeq → String
  | .int n => intStr n
  | .falseV => "False"

/-- Return value of `process_code`: the `(success, code, differentiator, point_type)`
tuple. -/
structure PCodeResult where
  success : Bool
  code : String
  seq : PySeq
  ptype : String
deriving DecidableEq, Repr

/-- Translation of `process_code(input_string, line_codes_ref, point_codes_ref)`:
match the token grammar, look the base code up in the line table then the point
table (the point check overwrites), resolve the differentiator, and on any miss
(no regex match, or base code in neither table) return the
`(False, "sprl", 1, point_type)` fallback tuple. -/
def process_code (input_string : String) (line_codes_ref point_codes_ref : List String) :
    PCodeResult :=
  match pyMatch input_string with
  | none => ⟨false, "sprl", PySeq.int 1, "Unknown"⟩
  | some (code, diff) =>
    let inLine := line_codes_ref.contains code
    let inPoint := point_codes_ref.contains code
    let found := inLine || inPoint
    let point_type := if inPoint then "Point" else if inLine then "Line" else "Unknown"
    let differentiator : PySeq :=
      match diff with
      | some d => PySeq.int d
      | none => if inLine then PySeq.int (-1) else PySeq.falseV
    if found then ⟨true, code, differentiator, point_type⟩
    else ⟨false, "sprl", PySeq.int 1, "Unknown"⟩

/-- Association-list lookup, modelling Python `d[k]` / `d.get(k)` for the
insertion-ordered dictionaries of the program. -/
def alookup {κ ν : Type} [BEq κ] (d : List (κ × ν)) (k : κ) : Option ν :=
  (d.find? (fun p => p.1 == k)).map (fun p => p.2)

/-- Python `d.setdefault(k, v)`: keep an existing entry, otherwise append. -/
def setdef {κ ν : Type} [BEq κ] : List (κ × ν) → κ → ν → List (κ × ν)
  | [], k, v => [(k, v)]
  | p :: rest, k, v => if p.1 == k then p :: rest else p :: setdef rest k v

/-- Python `d[k] = v`: overwrite in place, otherwise append. -/
def dictPut {ν : Type} : List (String × ν) → String → ν → List (String × ν)
  | [], k, v => [(k, v)]
  | p :: rest, k, v => if p.1 == k then (k, v) :: rest else p :: dictPut rest k v

/-- One loop pass of the attribute pairing in `get_survey`: columns after the
fifth are consumed two at a time into `attributes_dict`; an unpaired trailing
key gets the empty-string value. -/
def attribDictLoop : List String → List (String × String) → List (String × String)
  | [], d => d
  | [k], d => dictPut d k ""
  | k :: v :: rest, d => attribDictLoop rest (dictPut d k v)

/-- Row record built by `get_survey` for a data row (`row_dict`): the five fixed
columns (present when the row is long enough), the `Point_code` slot after it is
overwritten with the classifier's base code, the stringified sequence, and the
optional attribute mapping. -/
structure RowDict where
  pointNumber : Option String
  easting : Option String
  northing : Option String
  height : Option String
  point_code : String
  sequence : String
  attrib : Option (List (String × String))
deriving DecidableEq, Repr

/-- Whether a CSV row is treated as a data row: `row_dict.get("Point_code", False)`
is truthy, i.e. the row has at least five columns and the fifth is non-empty. -/
def isData (row : List String) : Bool :=
  decide (5 ≤ row.length) && row.getD 4 "" != ""

/-- The `row_dict` stored for a data row, after `Point_code` is overwritten with
the classifier's base code and `Sequence` / `attrib` are attached. -/
def mkRow (line_codes point_codes : List String) (row : List String) : RowDict :=
  let r := process_code (row.getD 4 "") line_codes point_codes
  { pointNumber := row.get? 0
    easting := row.get? 1
    northing := row.get? 2
    height := row.get? 3
    point_code := r.code
    sequence := pySeqStr r.seq
    attrib := if 5 < row.length then some (attribDictLoop (row.drop 5) []) else none }

/-- Inner level of the survey index: sequence id → ordered point list.  Keys
compare with Python dict equality (`False == 0`). -/
abbrev SeqMap := List (PySeq × List RowDict)

/-- Middle level of the survey index: base code → sequence map. -/
abbrev CodeMap := List (String × SeqMap)

/-- Python `sm.setdefault(k, []).append(rd)` on the sequence level. -/
def seqAppend : SeqMap → PySeq → RowDict → SeqMap
  | [], k, rd => [(k, [rd])]
  | (k2, v) :: rest, k, rd =>
    if pySeqBeq k2 k then (k2, v ++ [rd]) :: rest else (k2, v) :: seqAppend rest k rd

/-- Python `cm.setdefault(c, {}).setdefault(k, []).append(rd)` on the code level. -/
def codeAppend : CodeMap → String → PySeq → RowDict → CodeMap
  | [], c, k, rd => [(c, seqAppend [] k rd)]
  | (c2, sm) :: rest, c, k, rd =>
    if c2 == c then (c2, seqAppend sm k rd) :: rest
    else (c2, sm) :: codeAppend rest c k rd

/-- The `all_pts_map = {"Line": {}, "Point": {}, "Unknown": {}}` structure. -/
structure AllPtsMap where
  line : CodeMap
  point : CodeMap
  unknown : CodeMap
deriving DecidableEq, Repr

/-- Python `all_pts_map[point_type]` (the three keys present in the literal). -/
def mapOf (m : AllPtsMap) (t : String) : CodeMap :=
  if t = "Line" then m.line
  else if t = "Point" then m.point
  else if t = "Unknown" then m.unknown
  else []

/-- The `all_pts_map[point_type].setdefault(...).setdefault(...).append(...)` update. -/
def AllPtsMap.push (m : AllPtsMap) (t c : String) (k : PySeq) (rd : RowDict) : AllPtsMap :=
  if t = "Line" then { m with line := codeAppend m.line c k rd }
  else if t = "Point" then { m with point := codeAppend m.point c k rd }
  else if t = "Unknown" then { m with unknown := codeAppend m.unknown c k rd }
  else m

/-- Survey-index lookup at the sequence level (empty when absent). -/
def seqGet (sm : SeqMap) (k : PySeq) : List RowDict :=
  match sm.find? (fun p => pySeqBeq p.1 k) with
  | some p => p.2
  | none => []

/-- Survey-index lookup at the code level (empty when absent). -/
def codeGet (cm : CodeMap) (c : String) : SeqMap :=
  match cm.find? (fun p => p.1 == c) with
  | some p => p.2
  | none => []

/-- The ordered list stored under a `(point_type, base_code, sequence)` bucket. -/
def bucketGet (m : AllPtsMap) (t c : String) (k : PySeq) : List RowDict :=
  seqGet (codeGet (mapOf m t) c) k

/-- State threaded through the ingestion loop: the nested index plus the
process-scoped `needed_pcodes` registry. -/
structure IngestState where
  m : AllPtsMap
  needed : List String
deriving DecidableEq, Repr

/-- One iteration of the `for row in reader` loop of `get_survey`: skip rows
without a real point code; otherwise classify, register the base code, and
append the row record to its bucket. -/
def ingestStep (line_codes point_codes : List String) (st : IngestState)
    (row : List String) : IngestState :=
  if isData row then
    let r := process_code (row.getD 4 "") line_codes point_codes
    let needed2 := if st.needed.contains r.code then st.needed else st.needed ++ [r.code]
    ⟨st.m.push r.ptype r.code r.seq (mkRow line_codes point_codes row), needed2⟩
  else st

/-- Translation of `get_survey(file_path, point_codes_ref, line_codes_ref)`.
The file argument is `none` when opening raises `FileNotFoundError` /
`PermissionError` (both handlers print a diagnostic and return `None`),
otherwise the parsed CSV rows.  The global `needed_pcodes` registry is passed
and returned explicitly. -/
def get_survey (file_rows : Option (List (List String)))
    (point_codes_ref line_codes_ref : List String) (needed0 : List String) :
    Option AllPtsMap × List String :=
  match file_rows with
  | some rows =>
    let st := rows.foldl (ingestStep line_codes_ref point_codes_ref) ⟨⟨[], [], []⟩, needed0⟩
    (some st.m, st.needed)
  | none => (none, needed0)

/-- The survey index produced for a concrete row list (empty on the impossible
branch, used only for total lookups). -/
def surveyIndexOf (rows : List (List String)) (point_codes_ref line_codes_ref : List String) :
    AllPtsMap :=
  match (get_survey (some rows) point_codes_ref line_codes_ref []).1 with
  | some m => m
  | none => ⟨[], [], []⟩

/-- The `needed_pcodes` registry after ingesting a concrete row list. -/
def neededOf (rows : List (List String)) (point_codes_ref line_codes_ref : List String) :
    List String :=
  (get_survey (some rows) point_codes_ref line_codes_ref []).2

/-- Whether a row lands in the `(t, c, k)` bucket: it is a data row and the
classifier sends it there (sequence keys up to Python `False == 0` equality). -/
def selects (line_codes point_codes : List String) (t c : String) (k : PySeq)
    (row : List String) : Bool :=
  isData row &&
    (let r := process_code (row.getD 4 "") line_codes point_codes
     r.ptype == t && r.code == c && pySeqBeq r.seq k)

/-- Python `set.add` on a set modelled as a duplicate-free list (membership is
the only operation the program performs on `needed_layers`). -/
def setAdd (s : List String) (x : String) : List String :=
  if s.contains x then s else s ++ [x]

/-- One iteration of the `for pcode in pcode_list` loop of
`get_layer_from_pcode`: the mapped layer with its `attrib_` / `points_`
companions when the code is a key of the map, the `"Spare"` trio otherwise. -/
def layerStep (code_layer_map : List (String × String)) (needed_layers : List String)
    (pcode : String) : List String :=
  match alookup code_layer_map pcode with
  | some layer =>
    setAdd (setAdd (setAdd needed_layers layer) ("attrib_" ++ layer)) ("points_" ++ layer)
  | none =>
    setAdd (setAdd (setAdd needed_layers "Spare") "attrib_Spare") "points_Spare"

/-- Translation of `get_layer_from_pcode(pcode_list, code_layer_map)`: start from
the fixed `"Points"` layer; for each needed code add its mapped layer and the
`attrib_` / `points_` companions when the code is a key of the map, and the
`"Spare"` trio otherwise. -/
def get_layer_from_pcode (pcode_list : List String) (code_layer_map : List (String × String)) :
    List String :=
  pcode_list.foldl (layerStep code_layer_map) (setAdd [] "Points")

/-- Tag of a child of the `FeatureDefinitions` section: a point feature
definition, a line feature definition, or anything else (skipped). -/
inductive FeatKind where
  | point : FeatKind
  | line : FeatKind
  | other : FeatKind
deriving DecidableEq, Repr

/-- One feature definition of the library document: its tag and its XML
attribute mapping (`gchild.attrib`). -/
structure FeatDef where
  kind : FeatKind
  attrib : List (String × String)
deriving DecidableEq, Repr

/-- Python `attrib.get(k)`: `None` when the attribute is absent. -/
def attGet (a : List (String × String)) (k : String) : Option String :=
  alookup a k

/-- The three tables returned by `get_codes`: point-feature definitions,
line-feature definitions, and the merged code → layer map.  Keys are
`attrib.get('Code')`, hence possibly Python `None`. -/
structure CodesState where
  point_code_dict : List (Option String × List (String × String))
  line_code_dict : List (Option String × List (String × String))
  code_layer_map : List (Option String × Option String)
deriving DecidableEq, Repr

/-- One iteration of the `for gchild in child` loop of `get_codes`. -/
def codesStep (st : CodesState) (d : FeatDef) : CodesState :=
  match d.kind with
  | .point =>
    let code := attGet d.attrib "Code"
    { st with
      point_code_dict := setdef st.point_code_dict code d.attrib
      code_layer_map := setdef st.code_layer_map code (attGet d.attrib "Layer") }
  | .line =>
    let code := attGet d.attrib "Code"
    { st with
      line_code_dict := setdef st.line_code_dict code d.attrib
      code_layer_map := setdef st.code_layer_map code (attGet d.attrib "Layer") }
  | .other => st

/-- Translation of `get_codes(file_path)`, applied to the feature definitions of
the (well-formed) library document in document order. -/
def get_codes (defs : List FeatDef) : CodesState :=
  defs.foldl codesStep ⟨[], [], []⟩

/-- Modelled from the spec: the token grammar of the classifier as the spec
words it — "a run of letters (optionally followed by letters/digits, ending in
a letter) immediately followed by an optional run of digits at the very end".
Stated by searching all split points, so it is executable. -/
def specTokenAccepts (s : String) : Bool :=
  let cs := s.data
  (List.range (cs.length + 1)).any fun i =>
    (List.range (cs.length + 1)).any fun j =>
      decide (1 ≤ i) && decide (i ≤ j) && decide (j ≤ cs.length) &&
      ((cs.take i).all chLet) &&
      (let mid := (cs.drop i).take (j - i)
       mid.isEmpty ||
         (mid.all (fun c => chLet c || chDig c) &&
          (match mid.getLast? with | some c => chLet c | none => false))) &&
      ((cs.drop j).all chDig)

/-- Exception values the modelled fragment can raise. -/
inductive PyError where
  | typeError : PyError
  | keyError : String → PyError
  | indexError : PyError
deriving DecidableEq, Repr

/-- Drawing-side effects issued against the external CAD document, recorded
abstractly in emission order. -/
inductive Entity where
  | mtext : String → Entity
  | pointEnt : String → Entity
  | textEnt : String → String → Entity
  | polyline : String → List (String × String × String) → Entity
  | blockDef : String → Entity
  | blockref : String → Entity
  | mleader : String → Entity
  | layerAdd : String → String → Entity
deriving DecidableEq, Repr

/-- The `POINTCODE_TO_TEXT` table of the source. -/
def POINTCODE_TO_TEXT : List (String × String) :=
  [("wmf_av", "A.V."), ("wmf_bb", "BB"), ("wmf_bm", "B.M."),
   ("wmf_conn", "Connection\nEasting: ###\nNorthing: ###"), ("wmf_dc", "D.C"),
   ("wmf_fh", "F.H."), ("wmf_fm", "FM"), ("wmf_sv", "S.V"),
   ("wmf_marker", "MarkerPlate"), ("wmf_sc", "S.C."), ("wmf_scv", "Sc.V"),
   ("wmf_scmh", "Sc.MH"), ("wmf_rd", "RD"), ("wmf_sd", "S.D."), ("wmf_tp", "Tee")]

/-- The `MAP_RGB_TO_CAD` colour table of the source. -/
def MAP_RGB_TO_CAD : List (String × String) :=
  [("FF804000", "36"), ("FFD3D3D3", "254"), ("FFFFFF00", "2"), ("FF008000", "96"),
   ("FF0080FF", "150"), ("FFFF7F00", "30"), ("FFFF003F", "240"), ("FF000040", "178"),
   ("FFFFA500", "40"), ("FFADADAD", "253"), ("FFFF00FF", "6"), ("FF3F00FF", "180"),
   ("FF800080", "216"), ("FF0000A0", "174"), ("FF0000FF", "5"), ("FF003FFF", "160"),
   ("FF009926", "104"), ("FF00FF00", "3"), ("FFFF0000", "1"), ("FFFFFFFF", "7")]

/-- Python `str.split(sep)` for a one-character separator (used for
`attrib_key.split(':')`). -/
def splitOnChar (sep : Char) : List Char → List (List Char)
  | [] => [[]]
  | x :: xs =>
    let r := splitOnChar sep xs
    if x == sep then [] :: r
    else
      match r with
      | [] => [[x]]
      | y :: ys => (x :: y) :: ys

/-- Python `s.split(':')` on strings. -/
def pySplitColon (s : String) : List String :=
  (splitOnChar (Char.ofNat 58) s.data).map String.mk

/-- Vertex triple appended to `vertex_list`: the raw Easting / Northing / Height
strings (Python converts them with `float(...)`, abstracted here), with the
`point.get(..., 0)` default. -/
def rowVert (rd : RowDict) : String × String × String :=
  (rd.easting.getD "0", rd.northing.getD "0", rd.height.getD "0")

/-- Translation of `add_attrib_text(point, point_code, layer_name)`: one mtext
per attribute pair — raising `IndexError` when the attribute key has no
colon (`attrib_key.split(':')[1]`) — then the point marker on the
`points_`-layer and the three label texts (`point["Height"]` and
`point["PointNumber"]` raise `KeyError` when absent, which cannot happen for a
data row). -/
def add_attrib_text (point : RowDict) (point_code : String) (layer_name : String) :
    Except PyError (List Entity) := do
  let attribEnts ←
    match point.attrib with
    | some ad =>
      ad.foldlM
        (fun (acc : List Entity) kv => do
          match (pySplitColon kv.1).get? 1 with
          | some lbl => Except.ok (acc ++ [Entity.mtext (lbl ++ ": " ++ kv.2)])
          | none => Except.error PyError.indexError)
        []
    | none => Except.ok []
  let sequence_text := if point.sequence = "None" || point.sequence = "-1" then "" else point.sequence
  let htxt ←
    match point.height with
    | some h => Except.ok h
    | none => Except.error (PyError.keyError "Height")
  let ptxt ←
    match point.pointNumber with
    | some p => Except.ok p
    | none => Except.error (PyError.keyError "PointNumber")
  Except.ok (attribEnts ++
    [Entity.pointEnt ("points_" ++ layer_name),
     Entity.textEnt ("Code: " ++ point_code ++ sequence_text) "Point Code",
     Entity.textEnt ("Z = " ++ htxt) "Point Height",
     Entity.textEnt ("PtNum: " ++ ptxt) "Point Number"])

/-- The feature-definition tables as `create_dxf` receives them
(`point_codes_dict` / `line_codes_dict` from `get_codes`). -/
abbrev CTable := List (Option String × List (String × String))

/-- One iteration of the line-drawing loops of `create_dxf` (used for both the
`survey['Line']` and the `survey['Unknown']` section, which share their body):
`line_codes_dict[point_code]` raises `KeyError(point_code)` for an undeclared
code, `['Layer']` raises `KeyError('Layer')`, then each sequence emits its
attribute texts and one polyline. -/
def processCodeGroup (line_codes_dict : CTable) (point_code : String) (sm : SeqMap) :
    Except PyError (List Entity) := do
  let entry ←
    match alookup line_codes_dict (some point_code) with
    | some a => Except.ok a
    | none => Except.error (PyError.keyError point_code)
  let layer_name ←
    match attGet entry "Layer" with
    | some l => Except.ok l
    | none => Except.error (PyError.keyError "Layer")
  sm.foldlM
    (fun (acc : List Entity) se => do
      let ents ←
        se.2.foldlM
          (fun (acc2 : List Entity) pt => do
            let ats ← add_attrib_text pt point_code layer_name
            Except.ok (acc2 ++ ats))
          []
      Except.ok (acc ++ ents ++ [Entity.polyline layer_name (se.2.map rowVert)]))
    []

/-- A whole line-drawing section of `create_dxf` (the loop over the keys of
`survey['Line']`, and then again over `survey['Unknown']`). -/
def processSurveySection (line_codes_dict : CTable) (cm : CodeMap) :
    Except PyError (List Entity) :=
  cm.foldlM
    (fun (acc : List Entity) e => do
      let ents ← processCodeGroup line_codes_dict e.1 e.2
      Except.ok (acc ++ ents))
    []

/-- One iteration of the point-drawing loop of `create_dxf`: block/leader
emission for the allow-listed codes (with the accumulated `locations` list
re-inserted each time, as the source does), attribute text for every point,
and the `point_codes_dict[point_code]['Layer']` lookups. -/
def processPointGroup (point_codes_dict : CTable) (point_code : String) (sm : SeqMap) :
    Except PyError (List Entity) := do
  let blockText := alookup POINTCODE_TO_TEXT point_code
  let needs_block := blockText.isSome
  let block_name := (blockText.getD "") ++ "_Block"
  let entry ←
    match alookup point_codes_dict (some point_code) with
    | some a => Except.ok a
    | none => Except.error (PyError.keyError point_code)
  let layer_name ←
    match attGet entry "Layer" with
    | some l => Except.ok l
    | none => Except.error (PyError.keyError "Layer")
  let r ←
    sm.foldlM
      (fun (st : List (String × String × String) × List Entity) se =>
        se.2.foldlM
          (fun st2 pt => do
            let locs := if needs_block then st2.1 ++ [rowVert pt] else st2.1
            let lead := if needs_block then [Entity.mleader (blockText.getD "")] else []
            let ats ← add_attrib_text pt point_code layer_name
            let blocks := if needs_block then locs.map (fun _ => Entity.blockref block_name) else []
            Except.ok (locs, st2.2 ++ lead ++ ats ++ blocks))
          st)
      (([], []) : List (String × String × String) × List Entity)
  Except.ok r.2

/-- Translation of `create_blocks()`: one block definition per needed code that
appears in `POINTCODE_TO_TEXT`. -/
def create_blocks (needed_pcodes : List String) : List Entity :=
  needed_pcodes.filterMap
    (fun p => (alookup POINTCODE_TO_TEXT p).map (fun t => Entity.blockDef (t ++ "_Block")))

/-- Layer table obtained from `get_layers` (layer name → property mapping);
keys with `None` names never match a string lookup and are dropped. -/
abbrev LTable := List (String × List (String × String))

/-- The `for layer in needed_layers` loop of `create_dxf`: colour resolution via
`MAP_RGB_TO_CAD.get(layers[layer]['Color'], 7)` for non-fixed declared layers —
with `layer_color` retaining its previous (stale) value for `"0"` / `"Points"` —
and the neutral `7` for undeclared layers.  `['Color']` raises `KeyError` when
the declared layer has no colour property. -/
def addNeededLayers (layers : LTable) (needed_layers : List String) :
    Except PyError (List Entity) := do
  let r ←
    needed_layers.foldlM
      (fun (st : List Entity × String) layer => do
        let lc ←
          match alookup layers layer with
          | some props =>
            if layer ≠ "0" ∧ layer ≠ "Points" then
              match attGet props "Color" with
              | some cval => Except.ok ((alookup MAP_RGB_TO_CAD cval).getD "7")
              | none => Except.error (PyError.keyError "Color")
            else Except.ok st.2
          | none => Except.ok "7"
        Except.ok (st.1 ++ [Entity.layerAdd layer lc], lc))
      (([], "7") : List Entity × String)
  Except.ok r.1

/-- Translation of `create_dxf(output_dxf_path, layers, survey, point_codes_dict,
line_codes_dict, needed_layers)` (plus the global `needed_pcodes` consumed by
`create_blocks`): blocks, fixed annotation layers, needed layers, the
`survey['Line']` section, the `survey['Unknown']` section (looked up in the
line-code table), the `survey['Point']` section, then `doc.saveas` — so a
returned `Except.ok` value means the output file was written, and any raised
exception leaves no output file. -/
def create_dxf (layers : LTable) (survey : AllPtsMap)
    (point_codes_dict line_codes_dict : CTable)
    (needed_layers needed_pcodes : List String) : Except PyError (List Entity) := do
  let blockEnts := create_blocks needed_pcodes
  let fixedLayers :=
    [Entity.layerAdd "Point Code" "1", Entity.layerAdd "Point Height" "5",
     Entity.layerAdd "Point Number" "3"]
  let layerEnts ← addNeededLayers layers needed_layers
  let lineEnts ← processSurveySection line_codes_dict survey.line
  let unkEnts ← processSurveySection line_codes_dict survey.unknown
  let ptEnts ←
    survey.point.foldlM
      (fun (acc : List Entity) e => do
        let ents ← processPointGroup point_codes_dict e.1 e.2
        Except.ok (acc ++ ents))
      []
  Except.ok (blockEnts ++ fixedLayers ++ layerEnts ++ lineEnts ++ unkEnts ++ ptEnts)

/-- Translation of `set_dxf_view(survey_ref)` as `__main__` calls it: subscripting
`survey_ref['Line']` raises `TypeError` when `get_survey` returned `None`; the
numeric view-extent computation itself is outside the embedded fragment. -/
def set_dxf_view (survey_ref : Option AllPtsMap) : Except PyError Unit :=
  match survey_ref with
  | none => Except.error PyError.typeError
  | some _ => Except.ok ()

/-- The `__main__` pipeline from ingestion on: `get_survey`, then
`set_dxf_view(survey)` (unconditionally), then `get_layer_from_pcode`, then
`create_dxf`.  The survey file content is `none` when the path does not exist or
is unreadable. -/
def main_run (survey_rows : Option (List (List String)))
    (layers : LTable) (point_code_dict line_code_dict : CTable)
    (code_layer_map : List (String × String)) : Except PyError (List Entity) := do
  let point_codes := point_code_dict.filterMap (fun e => e.1)
  let line_codes := line_code_dict.filterMap (fun e => e.1)
  let sres := get_survey survey_rows point_codes line_codes []
  set_dxf_view sres.1
  let needed_layers := get_layer_from_pcode sres.2 code_layer_map
  match sres.1 with
  | some survey =>
    create_dxf layers survey point_code_dict line_code_dict needed_layers sres.2
  | none => Except.error PyError.typeError

/-- C1 counterexample: for the unclassifiable token `"xyz123"` the claim says the
classifier returns the raw base code `"xyz"`; the code instead returns the
placeholder `"sprl"` (with sequence `1`). -/
theorem c1_counterexample :
    pyMatch "xyz123" = some ("xyz", some 123) ∧
      process_code "xyz123" [] [] = ⟨false, "sprl", PySeq.int 1, "Unknown"⟩ ∧
      (process_code "xyz123" [] []).code ≠ "xyz" := by
  decide

/-- C3 counterexample: the token `"abc7"` matches the grammar and carries the
trailing digit run `7`, but because its base code is in neither table the
classifier returns differentiator `1`, not `7`. -/
theorem c3_counterexample :
    pyMatch "abc7" = some ("abc", some 7) ∧
      (process_code "abc7" [] []).seq = PySeq.int 1 ∧
      (process_code "abc7" [] []).seq ≠ PySeq.int 7 := by
  decide

/-- C4 counterexample: with needed codes `["a", "b"]` and map `{"a" ↦ "L"}`, the
resolved set contains both the mapped layer `"L"` of code `"a"` and `"Spare"`
(contributed by `"b"`), so it does not contain "exactly one" of
`{mapped layer, "Spare"}` for code `"a"`. -/
theorem c4_counterexample :
    alookup [("a", "L")] "a" = some "L" ∧
      "L" ∈ get_layer_from_pcode ["a", "b"] [("a", "L")] ∧
      "Spare" ∈ get_layer_from_pcode ["a", "b"] [("a", "L")] := by
  decide

/-- C5 counterexample: the single-letter token `"a"` is accepted by the claim's
grammar ("a run of letters" with both optional parts absent) but the source
regex rejects it — group 1 needs at least two characters — so the classifier
reports a miss for it. -/
theorem c5_counterexample :
    specTokenAccepts "a" = true ∧ pyMatch "a" = none ∧
      (process_code "a" [] []).success = false := by
  decide

/-- C9 counterexample: a library declaring line code `"x"` on layer `"L1"` and
then point code `"x"` on layer `"L2"`.  The point table retains the `"L2"`
definition, but the merged map keeps the first writer `"L1"`, so the mapped
value differs from the Layer attribute of the point table's definition. -/
theorem c9_counterexample :
    alookup (get_codes [⟨FeatKind.line, [("Code", "x"), ("Layer", "L1")]⟩,
        ⟨FeatKind.point, [("Code", "x"), ("Layer", "L2")]⟩]).point_code_dict (some "x") =
        some [("Code", "x"), ("Layer", "L2")] ∧
      attGet [("Code", "x"), ("Layer", "L2")] "Layer" = some "L2" ∧
      alookup (get_codes [⟨FeatKind.line, [("Code", "x"), ("Layer", "L1")]⟩,
        ⟨FeatKind.point, [("Code", "x"), ("Layer", "L2")]⟩]).code_layer_map (some "x") =
        some (some "L1") ∧
      ("L1" : String) ≠ "L2" := by
  decide

/-- C10 counterexample: a survey with one Line row whose attribute key
`"Material"` has no colon and one unclassifiable row.  The Unknown bucket is
non-empty with key `"sprl"` and the library does not declare `"sprl"`, yet
`create_dxf` raises `IndexError` (from `attrib_key.split(':')[1]` while drawing
the Line group) rather than the claimed `KeyError` on the Unknown key — though
still before any output is saved. -/
theorem c10_counterexample :
    (surveyIndexOf [["1", "0", "0", "0", "kb1", "Material", "X"],
        ["2", "0", "0", "0", "zz9"]] [] ["kb"]).unknown =
      [("sprl", [(PySeq.int 1,
        [⟨some "2", some "0", some "0", some "0", "sprl", "1", none⟩])])] ∧
      alookup [(some "kb", [("Code", "kb"), ("Layer", "K")])] (some "sprl") = none ∧
      create_dxf []
          (surveyIndexOf [["1", "0", "0", "0", "kb1", "Material", "X"],
            ["2", "0", "0", "0", "zz9"]] [] ["kb"])
          [] [(some "kb", [("Code", "kb"), ("Layer", "K")])] ["Points"] ["kb", "sprl"] =
        Except.error PyError.indexError ∧
      PyError.indexError ≠ PyError.keyError "sprl" :=
  ⟨by decide, by decide, by rfl, by decide⟩

/-- C6: a base code that is a member of both the line-code table and the
point-code table classifies as Point — the point-table check overwrites the
line-table result. -/
theorem c6_theorem (s : String) (lcs pcs : List String) (code : String) (d : Option Nat)
    (hm : pyMatch s = some (code, d)) (hl : code ∈ lcs) (hp : code ∈ pcs) :
    (process_code s lcs pcs).ptype = "Point" ∧ (process_code s lcs pcs).success = true := by
  unfold process_code
  rw [hm]
  simp [hl, hp]

/-- C6 witness: the token `"ab"` with `"ab"` declared in both tables. -/
theorem c6_witness :
    pyMatch "ab" = some ("ab", none) ∧
      (process_code "ab" ["ab"] ["ab"]).ptype = "Point" ∧
      (process_code "ab" ["ab"] ["ab"]).success = true :=
  ⟨by decide, c6_theorem "ab" ["ab"] ["ab"] "ab" none (by decide) (by decide) (by decide)⟩

/-- C2: with a missing (or unreadable) survey file, `get_survey` indeed catches
the error and returns `None`, and no output file is produced — but the main
script then passes `None` straight to `set_dxf_view`, which raises an uncaught
`TypeError` subscripting it, instead of detecting the absent index and exiting
cleanly as the claim states. -/
theorem c2_theorem (layers : LTable) (pcd lcd : CTable) (clm : List (String × String)) :
    (get_survey none (pcd.filterMap (fun e => e.1)) (lcd.filterMap (fun e => e.1)) []).1 =
        none ∧
      main_run none layers pcd lcd clm = Except.error PyError.typeError := by
  exact ⟨rfl, rfl⟩

/-- C3: differentiator resolution as the code actually performs it.  For a
token matching the grammar whose base code is found in at least one table:
a trailing digit run becomes that integer; with no digit run the
differentiator is `-1` when the base is in the line table and stays unset
(`False`) otherwise.  For a found-in-neither base code the classifier
returns the fixed sequence `1` (and not the claimed trailing integer or
"unset"). -/
theorem c3_theorem (s : String) (lcs pcs : List String) (code : String) (d : Option Nat)
    (hm : pyMatch s = some (code, d)) :
    ((code ∈ lcs ∨ code ∈ pcs) →
      (∀ n : Nat, d = some n → (process_code s lcs pcs).seq = PySeq.int n) ∧
      (d = none → code ∈ lcs → (process_code s lcs pcs).seq = PySeq.int (-1)) ∧
      (d = none → code ∉ lcs → (process_code s lcs pcs).seq = PySeq.falseV)) ∧
    (code ∉ lcs → code ∉ pcs → (process_code s lcs pcs).seq = PySeq.int 1) := by
  unfold process_code
  rw [hm]
  constructor
  · intro hf
    refine ⟨?_, ?_, ?_⟩
    · rintro n rfl
      rcases hf with hl | hp
      · simp [hl]
      · simp [hp]
    · rintro rfl hl
      simp [hl]
    · rintro rfl hnl
      rcases hf with hl | hp
      · exact absurd hl hnl
      · simp [hp, hnl]
  · intro hnl hnp
    simp [hnl, hnp]

/-- C3 witness: `"kb3"` with `"kb"` a line code resolves to differentiator `3`. -/
theorem c3_witness : (process_code "kb3" ["kb"] []).seq = PySeq.int 3 :=
  (( c3_theorem "kb3" ["kb"] [] "kb" (some 3) (by decide)).1
    (Or.inl (by decide))).1 3 rfl

theorem mem_setAdd_self (s : List String) (x : String) : x ∈ setAdd s x := by
  unfold setAdd
  split
  · exact List.mem_of_elem_eq_true (by assumption)
  · simp

theorem mem_setAdd_of_mem {s : List String} {x : String} (y : String) (h : x ∈ s) :
    x ∈ setAdd s y := by
  unfold setAdd
  split
  · exact h
  · simp [h]

theorem mem_layerStep_of_mem (m : List (String × String)) {acc : List String} {x : String}
    (pcode : String) (h : x ∈ acc) : x ∈ layerStep m acc pcode := by
  unfold layerStep
  split <;> exact mem_setAdd_of_mem _ (mem_setAdd_of_mem _ (mem_setAdd_of_mem _ h))

theorem mem_foldl_layerStep_of_mem (m : List (String × String)) (l : List String)
    {acc : List String} {x : String} (h : x ∈ acc) :
    x ∈ l.foldl (layerStep m) acc := by
  induction l generalizing acc with
  | nil => exact h
  | cons a t ih => exact ih (mem_layerStep_of_mem m a h)

theorem layerStep_sat (m : List (String × String)) (acc : List String) (p : String) :
    (∀ L, alookup m p = some L →
      L ∈ layerStep m acc p ∧ ("attrib_" ++ L) ∈ layerStep m acc p ∧
        ("points_" ++ L) ∈ layerStep m acc p) ∧
    (alookup m p = none →
      "Spare" ∈ layerStep m acc p ∧ "attrib_Spare" ∈ layerStep m acc p ∧
        "points_Spare" ∈ layerStep m acc p) := by
  constructor
  · intro L hL
    unfold layerStep
    rw [hL]
    exact ⟨mem_setAdd_of_mem _ (mem_setAdd_of_mem _ (mem_setAdd_self _ _)),
      mem_setAdd_of_mem _ (mem_setAdd_self _ _), mem_setAdd_self _ _⟩
  · intro h
    unfold layerStep
    rw [h]
    exact ⟨mem_setAdd_of_mem _ (mem_setAdd_of_mem _ (mem_setAdd_self _ _)),
      mem_setAdd_of_mem _ (mem_setAdd_self _ _), mem_setAdd_self _ _⟩

theorem foldl_layerStep_sat (m : List (String × String)) (l : List String) (p : String)
    (hp : p ∈ l) (acc : List String) :
    (∀ L, alookup m p = some L →
      L ∈ l.foldl (layerStep m) acc ∧ ("attrib_" ++ L) ∈ l.foldl (layerStep m) acc ∧
        ("points_" ++ L) ∈ l.foldl (layerStep m) acc) ∧
    (alookup m p = none →
      "Spare" ∈ l.foldl (layerStep m) acc ∧ "attrib_Spare" ∈ l.foldl (layerStep m) acc ∧
        "points_Spare" ∈ l.foldl (layerStep m) acc) := by
  induction l generalizing acc with
  | nil => cases hp
  | cons a t ih =>
    rcases List.mem_cons.mp hp with rfl | hmem
    · constructor
      · intro L hL
        have h3 := (layerStep_sat m acc p).1 L hL
        exact ⟨mem_foldl_layerStep_of_mem m t h3.1, mem_foldl_layerStep_of_mem m t h3.2.1,
          mem_foldl_layerStep_of_mem m t h3.2.2⟩
      · intro h
        have h3 := (layerStep_sat m acc p).2 h
        exact ⟨mem_foldl_layerStep_of_mem m t h3.1, mem_foldl_layerStep_of_mem m t h3.2.1,
          mem_foldl_layerStep_of_mem m t h3.2.2⟩
    · exact ih hmem _

/-- C4: the resolved layer set always contains `"Points"`, and for each needed
code it contains the chosen layer — the mapped layer when the code is a key of
the map, `"Spare"` otherwise — together with both `attrib_` / `points_`
companions (the set can additionally contain `"Spare"` through other codes;
resolution is total, so an unmapped code never fails). -/
theorem c4_theorem (pcode_list : List String) (code_layer_map : List (String × String)) :
    "Points" ∈ get_layer_from_pcode pcode_list code_layer_map ∧
    ∀ p, p ∈ pcode_list →
      (∀ L, alookup code_layer_map p = some L →
        L ∈ get_layer_from_pcode pcode_list code_layer_map ∧
          ("attrib_" ++ L) ∈ get_layer_from_pcode pcode_list code_layer_map ∧
          ("points_" ++ L) ∈ get_layer_from_pcode pcode_list code_layer_map) ∧
      (alookup code_layer_map p = none →
        "Spare" ∈ get_layer_from_pcode pcode_list code_layer_map ∧
          "attrib_Spare" ∈ get_layer_from_pcode pcode_list code_layer_map ∧
          "points_Spare" ∈ get_layer_from_pcode pcode_list code_layer_map) := by
  constructor
  · exact mem_foldl_layerStep_of_mem _ _ (mem_setAdd_self [] "Points")
  · intro p hp
    exact foldl_layerStep_sat code_layer_map pcode_list p hp _

/-- C4 witness: with needed codes `["a", "b"]` and map `{"a" ↦ "L"}` the mapped
trio of `"a"`, the `"Spare"` trio of `"b"` and `"Points"` are all present. -/
theorem c4_witness :
    "Points" ∈ get_layer_from_pcode ["a", "b"] [("a", "L")] ∧
      ("L" ∈ get_layer_from_pcode ["a", "b"] [("a", "L")] ∧
        ("attrib_" ++ "L") ∈ get_layer_from_pcode ["a", "b"] [("a", "L")] ∧
        ("points_" ++ "L") ∈ get_layer_from_pcode ["a", "b"] [("a", "L")]) ∧
      ("Spare" ∈ get_layer_from_pcode ["a", "b"] [("a", "L")] ∧
        "attrib_Spare" ∈ get_layer_from_pcode ["a", "b"] [("a", "L")] ∧
        "points_Spare" ∈ get_layer_from_pcode ["a", "b"] [("a", "L")]) :=
  ⟨( c4_theorem ["a", "b"] [("a", "L")]).1,
   (( c4_theorem ["a", "b"] [("a", "L")]).2 "a" (by decide)).1 "L" (by decide),
   (( c4_theorem ["a", "b"] [("a", "L")]).2 "b" (by decide)).2 (by decide)⟩

/-- The attribute pairs read two-at-a-time from the trailing columns, with the
unpaired trailing key paired with the empty string (the order in which
`attributes_dict` receives its entries). -/
def pairsOf : List String → List (String × String)
  | [] => []
  | [k] => [(k, "")]
  | k :: v :: rest => (k, v) :: pairsOf rest

theorem dictPut_fresh (d : List (String × String)) (k v : String)
    (h : ∀ p ∈ d, p.1 ≠ k) : dictPut d k v = d ++ [(k, v)] := by
  induction d with
  | nil => rfl
  | cons p rest ih =>
    have hp : (p.1 == k) = false := beq_eq_false_iff_ne.mpr (h p (by simp))
    simp [dictPut, hp, ih (fun q hq => h q (List.mem_cons_of_mem p hq))]

theorem attribDictLoop_eq_append (ts : List String) :
    ∀ d : List (String × String),
      ((pairsOf ts).map Prod.fst).Nodup →
      (∀ p ∈ pairsOf ts, ∀ q ∈ d, p.1 ≠ q.1) →
      attribDictLoop ts d = d ++ pairsOf ts := by
  induction ts using pairsOf.induct with
  | case1 =>
    intro d h1 h2
    simp [attribDictLoop, pairsOf]
  | case2 k =>
    intro d h1 h2
    unfold attribDictLoop pairsOf
    exact dictPut_fresh d k "" (fun q hq => (h2 (k, "") (by simp [pairsOf]) q hq).symm)
  | case3 k v rest ih =>
    intro d h1 h2
    have hcast : (k :: (pairsOf rest).map Prod.fst).Nodup := by simpa [pairsOf] using h1
    unfold attribDictLoop
    rw [dictPut_fresh d k v (fun q hq => (h2 (k, v) (by simp [pairsOf]) q hq).symm)]
    rw [ih (d ++ [(k, v)]) (List.nodup_cons.mp hcast).2 ?_]
    · simp [pairsOf]
    · intro p hp q hq
      rcases List.mem_append.mp hq with hq1 | hq2
      · exact h2 p (by simp [pairsOf, hp]) q hq1
      · have hk : q = (k, v) := by simpa using hq2
        subst hk
        intro hcontra
        refine (List.nodup_cons.mp hcast).1 ?_
        rw [show k = p.1 from hcontra.symm]
        exact List.mem_map_of_mem Prod.fst hp

theorem pairsOf_get (ts : List String) (i : Nat) :
    (pairsOf ts).get? i =
      if 2*i < ts.length then some (ts.getD (2*i) "", ts.getD (2*i+1) "") else none := by
  induction ts using pairsOf.induct generalizing i with
  | case1 => simp [pairsOf]
  | case2 k =>
    cases i with
    | zero => simp [pairsOf]
    | succ n =>
      have hlt : ¬ 2*(n+1) < ([k] : List String).length := by simp
      simp [pairsOf, hlt]
  | case3 k v rest ih =>
    cases i with
    | zero => simp [pairsOf]
    | succ n =>
      have e1 : 2*(n+1) = (2*n+1)+1 := by omega
      have e2 : 2*(n+1)+1 = ((2*n+1)+1)+1 := by omega
      have e3 : (2*n+1)+1 < rest.length + 1 + 1 ↔ 2*n < rest.length := by omega
      simp only [pairsOf, List.get?_cons_succ, e1, e2, List.getD_cons_succ, List.length_cons]
      rw [ih n]
      simp [e3]

/-- C8: a data row with five or fewer columns gets no attribute mapping; with
more, the columns after the fifth become `attributes_dict`, which (for distinct
attribute keys) holds exactly the pairs read two-at-a-time, an odd trailing key
being paired with the empty string (the `ts.getD (2*i+1) ""` default below is
that empty value). -/
theorem c8_theorem (row : List String) (lcs pcs : List String) :
    (row.length ≤ 5 → (mkRow lcs pcs row).attrib = none) ∧
    (5 < row.length → (mkRow lcs pcs row).attrib = some (attribDictLoop (row.drop 5) [])) ∧
    (∀ ts : List String, ((pairsOf ts).map Prod.fst).Nodup →
      ∀ i : Nat, (attribDictLoop ts []).get? i =
        if 2*i < ts.length then some (ts.getD (2*i) "", ts.getD (2*i+1) "") else none) := by
  refine ⟨?_, ?_, ?_⟩
  · intro h
    simp [mkRow, Nat.not_lt.mpr h]
  · intro h
    simp [mkRow, h]
  · intro ts h1 i
    rw [attribDictLoop_eq_append ts [] h1 (by simp)]
    simpa using pairsOf_get ts i

/-- C8 witness: the odd attribute tail `["Diameter:", "150", "Material:"]` of a
six-plus-column row yields the mapping with `"Material:"` paired to `""`. -/
theorem c8_witness :
    (mkRow [] [] ["1", "100", "200", "10", "bm", "Diameter:", "150", "Material:"]).attrib =
        some (attribDictLoop ["Diameter:", "150", "Material:"] []) ∧
      (attribDictLoop ["Diameter:", "150", "Material:"] []).get? 0 =
        some ("Diameter:", "150") ∧
      (attribDictLoop ["Diameter:", "150", "Material:"] []).get? 1 =
        some ("Material:", "") := by
  refine ⟨?_, ?_, ?_⟩
  · have h := ( c8_theorem ["1", "100", "200", "10", "bm", "Diameter:", "150", "Material:"]
      [] []).2.1 (by decide)
    simpa using h
  · have h := ( c8_theorem ["1", "100", "200", "10", "bm", "Diameter:", "150", "Material:"]
      [] []).2.2 ["Diameter:", "150", "Material:"] (by decide) 0
    simpa using h
  · have h := ( c8_theorem ["1", "100", "200", "10", "bm", "Diameter:", "150", "Material:"]
      [] []).2.2 ["Diameter:", "150", "Material:"] (by decide) 1
    simpa using h

theorem pySeqBeq_iff {a b : PySeq} : pySeqBeq a b = true ↔ a.norm = b.norm := by
  simp [pySeqBeq]

theorem seqGet_seqAppend (sm : SeqMap) (k : PySeq) (rd : RowDict) (q : PySeq) :
    seqGet (seqAppend sm k rd) q =
      seqGet sm q ++ (if pySeqBeq k q then [rd] else []) := by
  induction sm with
  | nil =>
    by_cases h : pySeqBeq k q
    · simp [seqAppend, seqGet, List.find?, h]
    · simp [seqAppend, seqGet, List.find?, h]
  | cons hd tl ih =>
    obtain ⟨k2, v⟩ := hd
    by_cases h1 : pySeqBeq k2 k
    · by_cases h2 : pySeqBeq k2 q
      · have h3 : pySeqBeq k q = true := by
          rw [pySeqBeq_iff] at *
          omega
        simp [seqAppend, seqGet, List.find?, h1, h2, h3]
      · have h3 : pySeqBeq k q = false := by
          rw [Bool.eq_false_iff]
          intro hc
          rw [pySeqBeq_iff] at *
          omega
        simp [seqAppend, seqGet, List.find?, h1, h2, h3]
    · by_cases h2 : pySeqBeq k2 q
      · have h3 : pySeqBeq k q = false := by
          rw [Bool.eq_false_iff]
          intro hc
          rw [pySeqBeq_iff] at *
          omega
        simp [seqAppend, seqGet, List.find?, h1, h2, h3]
      · simpa [seqAppend, seqGet, List.find?, h1, h2] using ih

theorem seqGet_codeAppend (cm : CodeMap) (c : String) (k : PySeq) (rd : RowDict)
    (c2 : String) (q : PySeq) :
    seqGet (codeGet (codeAppend cm c k rd) c2) q =
      seqGet (codeGet cm c2) q ++ (if c == c2 && pySeqBeq k q then [rd] else []) := by
  induction cm with
  | nil =>
    by_cases h : c == c2
    · by_cases hk : pySeqBeq k q <;>
        simp [codeAppend, codeGet, seqAppend, List.find?, h, seqGet, hk]
    · simp [codeAppend, codeGet, List.find?, h, seqGet]
  | cons hd tl ih =>
    obtain ⟨c3, sm⟩ := hd
    by_cases h1 : c3 == c
    · by_cases h2 : c3 == c2
      · have h3 : (c == c2) = true := by
          have e1 := eq_of_beq h1
          have e2 := eq_of_beq h2
          exact beq_iff_eq.mpr (e1 ▸ e2)
        simp [codeAppend, codeGet, List.find?, h1, h2, h3, seqGet_seqAppend]
      · have h3 : (c == c2) = false := by
          rw [Bool.eq_false_iff]
          intro hc
          exact absurd (beq_iff_eq.mpr ((eq_of_beq h1).trans (eq_of_beq hc))) (by simp [h2])
        simp [codeAppend, codeGet, List.find?, h1, h2, h3]
    · by_cases h2 : c3 == c2
      · have h3 : (c == c2) = false := by
          rw [Bool.eq_false_iff]
          intro hc
          exact h1 (beq_iff_eq.mpr ((eq_of_beq h2).trans (eq_of_beq hc).symm))
        simp [codeAppend, codeGet, List.find?, h1, h2, h3]
      · simpa [codeAppend, codeGet, List.find?, h1, h2] using ih

theorem process_code_ptype (s : String) (lcs pcs : List String) :
    (process_code s lcs pcs).ptype = "Line" ∨ (process_code s lcs pcs).ptype = "Point" ∨
      (process_code s lcs pcs).ptype = "Unknown" := by
  unfold process_code
  cases pyMatch s with
  | none => simp
  | some p =>
    obtain ⟨code, d⟩ := p
    dsimp
    split_ifs <;> simp_all

theorem bucketGet_push (m : AllPtsMap) (pt pc : String) (sq : PySeq) (rd : RowDict)
    (hpt : pt = "Line" ∨ pt = "Point" ∨ pt = "Unknown") (t c : String) (q : PySeq) :
    bucketGet (m.push pt pc sq rd) t c q =
      bucketGet m t c q ++ (if pt == t && pc == c && pySeqBeq sq q then [rd] else []) := by
  have hline : ¬ "Point" = "Line" := by decide
  have hunk1 : ¬ "Unknown" = "Line" := by decide
  have hunk2 : ¬ "Unknown" = "Point" := by decide
  rcases hpt with rfl | rfl | rfl
  · by_cases ht : t = "Line"
    · subst ht
      simp [AllPtsMap.push, bucketGet, mapOf, seqGet_codeAppend]
    · have hbt : ("Line" == t) = false := by
        rw [Bool.eq_false_iff]
        intro hc
        exact ht (eq_of_beq hc).symm
      simp [AllPtsMap.push, bucketGet, mapOf, hbt, ht]
  · by_cases ht : t = "Point"
    · subst ht
      simp [AllPtsMap.push, bucketGet, mapOf, hline, seqGet_codeAppend]
    · have hbt : ("Point" == t) = false := by
        rw [Bool.eq_false_iff]
        intro hc
        exact ht (eq_of_beq hc).symm
      simp [AllPtsMap.push, bucketGet, mapOf, hbt, hline, ht]
  · by_cases ht : t = "Unknown"
    · subst ht
      simp [AllPtsMap.push, bucketGet, mapOf, hunk1, hunk2, seqGet_codeAppend]
    · have hbt : ("Unknown" == t) = false := by
        rw [Bool.eq_false_iff]
        intro hc
        exact ht (eq_of_beq hc).symm
      simp [AllPtsMap.push, bucketGet, mapOf, hbt, hunk1, hunk2, ht]

theorem bucketGet_step (lcs pcs : List String) (st : IngestState) (row : List String)
    (t c : String) (q : PySeq) :
    bucketGet (ingestStep lcs pcs st row).m t c q =
      bucketGet st.m t c q ++
        (if selects lcs pcs t c q row then [mkRow lcs pcs row] else []) := by
  unfold ingestStep selects
  by_cases hd : isData row
  · simp only [hd, if_true, Bool.true_and]
    exact bucketGet_push st.m _ _ _ _ (process_code_ptype _ lcs pcs) t c q
  · simp [hd]

theorem bucketGet_foldl (lcs pcs : List String) (rows : List (List String))
    (st : IngestState) (t c : String) (q : PySeq) :
    bucketGet (rows.foldl (ingestStep lcs pcs) st).m t c q =
      bucketGet st.m t c q ++
        (rows.filter (selects lcs pcs t c q)).map (mkRow lcs pcs) := by
  induction rows generalizing st with
  | nil => simp
  | cons r rest ih =>
    simp only [List.foldl_cons, List.filter_cons]
    rw [ih, bucketGet_step]
    by_cases h : selects lcs pcs t c q r
    · simp [h]
    · simp [h]

theorem bucketGet_empty (t c : String) (q : PySeq) :
    bucketGet ⟨[], [], []⟩ t c q = [] := by
  unfold bucketGet mapOf codeGet seqGet
  split_ifs <;> simp [List.find?]

theorem bucketGet_surveyIndexOf (rows : List (List String))
    (point_codes line_codes : List String) (t c : String) (q : PySeq) :
    bucketGet (surveyIndexOf rows point_codes line_codes) t c q =
      (rows.filter (selects line_codes point_codes t c q)).map (mkRow line_codes point_codes) := by
  unfold surveyIndexOf get_survey
  simpa [bucketGet_empty] using
    bucketGet_foldl line_codes point_codes rows ⟨⟨[], [], []⟩, []⟩ t c q

/-- C7: the list stored under any `(point_type, base_code, sequence)` bucket of
the ingested survey index is exactly the image of the data rows that classify
to that bucket, taken in input-row order — so its length is the number of such
rows and its element order is the input order, whatever rows of other buckets
are interleaved. -/
theorem c7_theorem (rows : List (List String)) (point_codes line_codes : List String)
    (t c : String) (q : PySeq) :
    bucketGet (surveyIndexOf rows point_codes line_codes) t c q =
        (rows.filter (selects line_codes point_codes t c q)).map
          (mkRow line_codes point_codes) ∧
      (bucketGet (surveyIndexOf rows point_codes line_codes) t c q).length =
        (rows.filter (selects line_codes point_codes t c q)).length := by
  refine ⟨bucketGet_surveyIndexOf rows point_codes line_codes t c q, ?_⟩
  rw [bucketGet_surveyIndexOf rows point_codes line_codes t c q]
  exact List.length_map _ _

theorem needed_step_mono (lcs pcs : List String) (st : IngestState) (row : List String)
    {p : String} (h : p ∈ st.needed) : p ∈ (ingestStep lcs pcs st row).needed := by
  unfold ingestStep
  by_cases hd : isData row = true
  · rw [if_pos hd]
    dsimp only
    by_cases hc : st.needed.contains (process_code (row.getD 4 "") lcs pcs).code = true
    · rw [if_pos hc]
      exact h
    · rw [if_neg hc]
      exact List.mem_append_left _ h
  · rw [if_neg hd]
    exact h

theorem needed_foldl_mono (lcs pcs : List String) (rows : List (List String))
    (st : IngestState) {p : String} (h : p ∈ st.needed) :
    p ∈ (rows.foldl (ingestStep lcs pcs) st).needed := by
  induction rows generalizing st with
  | nil => exact h
  | cons r rest ih => exact ih _ (needed_step_mono lcs pcs st r h)

theorem needed_step_self (lcs pcs : List String) (st : IngestState) (row : List String)
    (hd : isData row = true) :
    (process_code (row.getD 4 "") lcs pcs).code ∈ (ingestStep lcs pcs st row).needed := by
  unfold ingestStep
  rw [if_pos hd]
  dsimp only
  by_cases hc : st.needed.contains (process_code (row.getD 4 "") lcs pcs).code = true
  · rw [if_pos hc]
    exact List.mem_of_elem_eq_true hc
  · rw [if_neg hc]
    exact List.mem_append_right _ (by simp)

theorem needed_of_row (lcs pcs : List String) (rows : List (List String))
    (row : List String) (hmem : row ∈ rows) (hd : isData row = true) (st : IngestState) :
    (process_code (row.getD 4 "") lcs pcs).code ∈
      (rows.foldl (ingestStep lcs pcs) st).needed := by
  induction rows generalizing st with
  | nil => cases hmem
  | cons r rest ih =>
    rcases List.mem_cons.mp hmem with rfl | hmem2
    · exact needed_foldl_mono lcs pcs rest _ (needed_step_self lcs pcs st row hd)
    · exact ih hmem2 _

/-- C1: for a token whose base code is in neither table the classifier returns
kind Unknown with the fixed placeholder code `"sprl"` and sequence `1` (it does
NOT return the raw base code), and the ingester buckets the row under
`Unknown → "sprl" → 1` and appends `"sprl"` to the needed-codes registry. -/
theorem c1_theorem (rows : List (List String)) (point_codes line_codes : List String)
    (row : List String) (hmem : row ∈ rows) (hdata : isData row = true)
    (hmiss : ∀ code d, pyMatch (row.getD 4 "") = some (code, d) →
      code ∉ line_codes ∧ code ∉ point_codes) :
    process_code (row.getD 4 "") line_codes point_codes =
        ⟨false, "sprl", PySeq.int 1, "Unknown"⟩ ∧
      mkRow line_codes point_codes row ∈
        bucketGet (surveyIndexOf rows point_codes line_codes) "Unknown" "sprl" (PySeq.int 1) ∧
      "sprl" ∈ neededOf rows point_codes line_codes := by
  have hpc : process_code (row.getD 4 "") line_codes point_codes =
      ⟨false, "sprl", PySeq.int 1, "Unknown"⟩ := by
    unfold process_code
    cases hm : pyMatch (row.getD 4 "") with
    | none => rfl
    | some p =>
      obtain ⟨code, d⟩ := p
      have h := hmiss code d hm
      simp [h.1, h.2]
  refine ⟨hpc, ?_, ?_⟩
  · rw [bucketGet_surveyIndexOf]
    refine List.mem_map_of_mem _ (List.mem_filter.mpr ⟨hmem, ?_⟩)
    unfold selects
    rw [hdata, hpc]
    decide
  · have h := needed_of_row line_codes point_codes rows row hmem hdata ⟨⟨[], [], []⟩, []⟩
    rw [hpc] at h
    unfold neededOf get_survey
    exact h

/-- C1 witness: the single data row coded `"xyz123"` with empty code tables
lands in the `Unknown/"sprl"/1` bucket and registers `"sprl"`. -/
theorem c1_witness :
    mkRow [] [] ["9", "0", "0", "0", "xyz123"] ∈
        bucketGet (surveyIndexOf [["9", "0", "0", "0", "xyz123"]] [] [])
          "Unknown" "sprl" (PySeq.int 1) ∧
      "sprl" ∈ neededOf [["9", "0", "0", "0", "xyz123"]] [] [] := by
  have h := c1_theorem [["9", "0", "0", "0", "xyz123"]] [] [] ["9", "0", "0", "0", "xyz123"]
    (by simp) (by decide) (fun code d hm => ⟨by simp, by simp⟩)
  exact ⟨h.2.1, h.2.2⟩

theorem alookup_setdef_some {κ ν : Type} [BEq κ] (d : List (κ × ν)) (k k2 : κ) (v : ν)
    (w : ν) (h : alookup d k2 = some w) : alookup (setdef d k v) k2 = some w := by
  induction d with
  | nil => simp [alookup, List.find?] at h
  | cons p rest ih =>
    by_cases hpk : p.1 == k
    · unfold setdef
      rw [if_pos hpk]
      exact h
    · by_cases hp2 : p.1 == k2
      · simp only [alookup, List.find?, hp2, Option.map_some] at h ⊢
        simpa [setdef, hpk, alookup, List.find?, hp2] using h
      · simp only [alookup, List.find?, hp2, Bool.false_eq_true] at h
        simpa [setdef, hpk, alookup, List.find?, hp2] using ih h

theorem alookup_setdef_none {κ ν : Type} [BEq κ] [LawfulBEq κ] (d : List (κ × ν))
    (k k2 : κ) (v : ν) (h : alookup d k2 = none) :
    alookup (setdef d k v) k2 = if k == k2 then some v else none := by
  induction d with
  | nil =>
    by_cases hk : k == k2 <;> simp [setdef, alookup, List.find?, hk]
  | cons p rest ih =>
    have hp2 : (p.1 == k2) = false := by
      rw [Bool.eq_false_iff]
      intro hc
      simp [alookup, List.find?, hc] at h
    by_cases hpk : p.1 == k
    · unfold setdef
      rw [if_pos hpk]
      have hk : (k == k2) = false := by
        rw [Bool.eq_false_iff]
        intro hc
        rw [show (p.1 == k2) = true from beq_iff_eq.mpr ((eq_of_beq hpk).trans (eq_of_beq hc))]
          at hp2
        exact Bool.true_eq_false.mp hp2
      rw [h, hk]
      simp
    · simp only [alookup, List.find?, hp2, Bool.false_eq_true] at h
      simpa [setdef, hpk, alookup, List.find?, hp2] using ih h

theorem isSome_setdef_mono {κ ν : Type} [BEq κ] (d : List (κ × ν)) (k k2 : κ) (v : ν)
    (h : (alookup d k2).isSome = true) : (alookup (setdef d k v) k2).isSome = true := by
  cases hh : alookup d k2 with
  | none => rw [hh] at h; cases h
  | some w => rw [alookup_setdef_some d k k2 v w hh]; rfl

theorem isSome_setdef_cases {κ ν : Type} [BEq κ] [LawfulBEq κ] (d : List (κ × ν))
    (k k2 : κ) (v : ν) (h : (alookup (setdef d k v) k2).isSome = true) :
    (alookup d k2).isSome = true ∨ (k == k2) = true := by
  cases hh : alookup d k2 with
  | some w => exact Or.inl (by simp [hh])
  | none =>
    right
    rw [alookup_setdef_none d k k2 v hh] at h
    by_cases hk : (k == k2) = true
    · exact hk
    · rw [if_neg hk] at h
      cases h

theorem alookup_setdef_self {κ ν : Type} [BEq κ] [LawfulBEq κ] (d : List (κ × ν))
    (k : κ) (v : ν) : (alookup (setdef d k v) k).isSome = true := by
  cases hh : alookup d k with
  | some w => rw [alookup_setdef_some d k k v w hh]; rfl
  | none => rw [alookup_setdef_none d k k v hh]; simp

theorem alookup_setdef_eq {κ ν : Type} [BEq κ] [LawfulBEq κ] (d : List (κ × ν))
    (k k2 : κ) (v : ν) (w : ν) (h : alookup (setdef d k v) k2 = some w) :
    alookup d k2 = some w ∨ ((k == k2) = true ∧ alookup d k2 = none ∧ w = v) := by
  cases hh : alookup d k2 with
  | some u =>
    left
    rw [alookup_setdef_some d k k2 v u hh] at h
    exact h
  | none =>
    right
    rw [alookup_setdef_none d k k2 v hh] at h
    by_cases hk : (k == k2) = true
    · rw [if_pos hk] at h
      exact ⟨hk, rfl, (Option.some_inj.mp h).symm⟩
    · rw [if_neg hk] at h
      cases h

/-- Invariant of the `get_codes` fold: both tables' keys are keys of the merged
map, every map key comes from one of the tables, and for a code present in
exactly one table the map holds that table's declared Layer attribute. -/
def codesInv (st : CodesState) : Prop :=
  (∀ k, (alookup st.point_code_dict k).isSome = true →
    (alookup st.code_layer_map k).isSome = true) ∧
  (∀ k, (alookup st.line_code_dict k).isSome = true →
    (alookup st.code_layer_map k).isSome = true) ∧
  (∀ k, (alookup st.code_layer_map k).isSome = true →
    (alookup st.point_code_dict k).isSome = true ∨
      (alookup st.line_code_dict k).isSome = true) ∧
  (∀ k a, alookup st.point_code_dict k = some a →
    (alookup st.line_code_dict k).isSome = false →
    alookup st.code_layer_map k = some (attGet a "Layer")) ∧
  (∀ k a, alookup st.line_code_dict k = some a →
    (alookup st.point_code_dict k).isSome = false →
    alookup st.code_layer_map k = some (attGet a "Layer"))

theorem codesInv_step (st : CodesState) (d : FeatDef) (h : codesInv st) :
    codesInv (codesStep st d) := by
  obtain ⟨i1, i2, i3, i4, i5⟩ := h
  cases hk : d.kind with
  | other => simpa [codesStep, hk] using ⟨i1, i2, i3, i4, i5⟩
  | point =>
    simp only [codesStep, hk]
    refine ⟨?_, ?_, ?_, ?_, ?_⟩
    · intro k hkk
      rcases isSome_setdef_cases _ _ _ _ hkk with hp | hck
      · exact isSome_setdef_mono _ _ _ _ (i1 k hp)
      · rw [← eq_of_beq hck]
        exact alookup_setdef_self _ _ _
    · intro k hkk
      exact isSome_setdef_mono _ _ _ _ (i2 k hkk)
    · intro k hkk
      rcases isSome_setdef_cases _ _ _ _ hkk with hm | hck
      · rcases i3 k hm with hp | hl
        · exact Or.inl (isSome_setdef_mono _ _ _ _ hp)
        · exact Or.inr hl
      · refine Or.inl ?_
        rw [← eq_of_beq hck]
        exact alookup_setdef_self _ _ _
    · intro k a hka hlt
      rcases alookup_setdef_eq _ _ _ _ _ hka with hpk | ⟨hck, hpnone, rfl⟩
      · exact alookup_setdef_some _ _ _ _ _ (i4 k a hpk hlt)
      · have hmap : alookup st.code_layer_map k = none := by
          cases hm : alookup st.code_layer_map k with
          | none => rfl
          | some w =>
            rcases i3 k (by simp [hm]) with hc1 | hc2
            · rw [hpnone] at hc1
              cases hc1
            · rw [hc2] at hlt
              cases hlt
        rw [alookup_setdef_none _ _ _ _ hmap, if_pos hck]
    · intro k a hka hpt2
      have hpt : (alookup st.point_code_dict k).isSome = false := by
        cases hp : alookup st.point_code_dict k with
        | none => rfl
        | some w =>
          rw [alookup_setdef_some _ _ _ _ _ hp] at hpt2
          cases hpt2
      exact alookup_setdef_some _ _ _ _ _ (i5 k a hka hpt)
  | line =>
    simp only [codesStep, hk]
    refine ⟨?_, ?_, ?_, ?_, ?_⟩
    · intro k hkk
      exact isSome_setdef_mono _ _ _ _ (i1 k hkk)
    · intro k hkk
      rcases isSome_setdef_cases _ _ _ _ hkk with hp | hck
      · exact isSome_setdef_mono _ _ _ _ (i2 k hp)
      · rw [← eq_of_beq hck]
        exact alookup_setdef_self _ _ _
    · intro k hkk
      rcases isSome_setdef_cases _ _ _ _ hkk with hm | hck
      · rcases i3 k hm with hp | hl
        · exact Or.inl hp
        · exact Or.inr (isSome_setdef_mono _ _ _ _ hl)
      · refine Or.inr ?_
        rw [← eq_of_beq hck]
        exact alookup_setdef_self _ _ _
    · intro k a hka hlt2
      have hlt : (alookup st.line_code_dict k).isSome = false := by
        cases hl : alookup st.line_code_dict k with
        | none => rfl
        | some w =>
          rw [alookup_setdef_some _ _ _ _ _ hl] at hlt2
          cases hlt2
      exact alookup_setdef_some _ _ _ _ _ (i4 k a hka hlt)
    · intro k a hka hpt
      rcases alookup_setdef_eq _ _ _ _ _ hka with hlk | ⟨hck, hlnone, rfl⟩
      · exact alookup_setdef_some _ _ _ _ _ (i5 k a hlk hpt)
      · have hmap : alookup st.code_layer_map k = none := by
          cases hm : alookup st.code_layer_map k with
          | none => rfl
          | some w =>
            rcases i3 k (by simp [hm]) with hc1 | hc2
            · rw [hc1] at hpt
              cases hpt
            · rw [hlnone] at hc2
              cases hc2
        rw [alookup_setdef_none _ _ _ _ hmap, if_pos hck]

theorem codesInv_foldl (defs : List FeatDef) (st : CodesState) (h : codesInv st) :
    codesInv (defs.foldl codesStep st) := by
  induction defs generalizing st with
  | nil => exact h
  | cons d rest ih => exact ih _ (codesInv_step st d h)

theorem codesInv_get_codes (defs : List FeatDef) : codesInv (get_codes defs) := by
  refine codesInv_foldl defs ⟨[], [], []⟩ ⟨?_, ?_, ?_, ?_, ?_⟩ <;>
    intro k <;> simp [alookup, List.find?]

/-- C9: for every library document, every key of the point table and of the
line table is a key of the merged `code_layer_map`; and for a code declared in
only one of the two tables the mapped value is exactly that table's declared
`Layer` attribute.  (When a code appears in both tables the map keeps the first
declaration's layer, which is why the one-table restriction is needed.) -/
theorem c9_theorem (defs : List FeatDef) :
    (∀ k, (alookup (get_codes defs).point_code_dict k).isSome = true →
      (alookup (get_codes defs).code_layer_map k).isSome = true) ∧
    (∀ k, (alookup (get_codes defs).line_code_dict k).isSome = true →
      (alookup (get_codes defs).code_layer_map k).isSome = true) ∧
    (∀ k a, alookup (get_codes defs).point_code_dict k = some a →
      (alookup (get_codes defs).line_code_dict k).isSome = false →
      alookup (get_codes defs).code_layer_map k = some (attGet a "Layer")) ∧
    (∀ k a, alookup (get_codes defs).line_code_dict k = some a →
      (alookup (get_codes defs).point_code_dict k).isSome = false →
      alookup (get_codes defs).code_layer_map k = some (attGet a "Layer")) := by
  obtain ⟨i1, i2, i3, i4, i5⟩ := codesInv_get_codes defs
  exact ⟨i1, i2, i4, i5⟩

/-- C9 witness: a library declaring only point code `"bm"` on layer
`"BenchMarks"` maps `"bm"` to `"BenchMarks"` in the merged map. -/
theorem c9_witness :
    alookup (get_codes [⟨FeatKind.point, [("Code", "bm"), ("Layer", "BenchMarks")]⟩]).code_layer_map
        (some "bm") = some (some "BenchMarks") := by
  have h := (c9_theorem [⟨FeatKind.point, [("Code", "bm"), ("Layer", "BenchMarks")]⟩]).2.2.1
    (some "bm") [("Code", "bm"), ("Layer", "BenchMarks")] (by decide) (by decide)
  simpa using h

/-- C10: for a survey index with a non-empty Unknown bucket whose (first) key is
not declared in the line-code table, `create_dxf` never returns successfully —
no output file is ever saved — and whenever the layer-creation step and the
Line-group emission complete without raising, the failure is precisely the
uncaught `KeyError` on looking the Unknown bucket's key up in the line-code
table, raised before anything is emitted for that group. -/
theorem c10_theorem (layers : LTable) (survey : AllPtsMap) (pcd lcd : CTable)
    (nl np : List String) (k : String) (sm : SeqMap) (rest : CodeMap)
    (hu : survey.unknown = (k, sm) :: rest)
    (hk : alookup lcd (some k) = none) :
    processSurveySection lcd survey.unknown = Except.error (PyError.keyError k) ∧
    (∀ ents, create_dxf layers survey pcd lcd nl np ≠ Except.ok ents) ∧
    (∀ les lents, addNeededLayers layers nl = Except.ok les →
      processSurveySection lcd survey.line = Except.ok lents →
      create_dxf layers survey pcd lcd nl np = Except.error (PyError.keyError k)) := by
  have hunk : processSurveySection lcd survey.unknown = Except.error (PyError.keyError k) := by
    rw [hu]
    simp [processSurveySection, processCodeGroup, hk, Bind.bind, Except.bind]
  refine ⟨hunk, ?_, ?_⟩
  · intro ents hok
    unfold create_dxf at hok
    cases h1 : addNeededLayers layers nl with
    | error e =>
      rw [h1] at hok
      simp [Bind.bind, Except.bind] at hok
    | ok les =>
      rw [h1] at hok
      cases h2 : processSurveySection lcd survey.line with
      | error e =>
        rw [h2] at hok
        simp [Bind.bind, Except.bind] at hok
      | ok lents =>
        rw [h2, hunk] at hok
        simp [Bind.bind, Except.bind] at hok
  · intro les lents h1 h2
    unfold create_dxf
    rw [h1, h2, hunk]
    simp [Bind.bind, Except.bind]

/-- C10 witness: a survey index whose only content is one Unknown row under the
classifier's `"sprl"` key, with an empty line-code table. -/
theorem c10_witness :
    create_dxf []
        ⟨[], [],
          [("sprl", [(PySeq.int 1,
            [⟨some "2", some "0", some "0", some "0", "sprl", "1", none⟩])])]⟩
        [] [] [] [] = Except.error (PyError.keyError "sprl") :=
  (c10_theorem [] _ [] [] [] [] "sprl" _ [] rfl rfl).2.2 [] [] rfl rfl

theorem chLet_chDig_false {c : Char} (h : chLet c = true) : chDig c = false := by
  simp only [chLet, chDig, Bool.or_eq_true, Bool.and_eq_true, decide_eq_true_eq] at h ⊢
  rw [Bool.eq_false_iff]
  intro hc
  simp only [Bool.and_eq_true, decide_eq_true_eq] at hc
  omega

theorem chLet_chMid {c : Char} (h : chLet c = true) : chMid c = true := by
  simp [chMid, h]

theorem takeWhile_append_all {p : Char → Bool} (l1 l2 : List Char)
    (h : ∀ c ∈ l1, p c = true) :
    (l1 ++ l2).takeWhile p = l1 ++ l2.takeWhile p := by
  induction l1 with
  | nil => simp
  | cons a t ih =>
    have ha := h a (by simp)
    simp [List.takeWhile_cons, ha, ih (fun c hc => h c (by simp [hc]))]

theorem matchChars_isSome_iff (cs : List Char) :
    (matchChars cs).isSome = true ↔
      ∃ c1 mid c2 ds, cs = c1 :: (mid ++ c2 :: ds) ∧
        chLet c1 = true ∧ chLet c2 = true ∧
        (∀ c ∈ mid, chMid c = true) ∧ (∀ c ∈ ds, chDig c = true) := by
  constructor
  · intro h
    unfold matchChars at h
    dsimp only at h
    set ds := (cs.reverse.takeWhile chDig).reverse with hds
    set g1 := cs.take (cs.length - ds.length) with hg1
    by_cases hb : baseOk g1 = true
    swap
    · rw [if_neg hb] at h
      cases h
    have hsplit : cs = (cs.reverse.dropWhile chDig).reverse ++ ds := by
      rw [hds]
      calc cs = cs.reverse.reverse := (List.reverse_reverse cs).symm
        _ = (cs.reverse.takeWhile chDig ++ cs.reverse.dropWhile chDig).reverse := by
            rw [List.takeWhile_append_dropWhile]
        _ = (cs.reverse.dropWhile chDig).reverse ++ (cs.reverse.takeWhile chDig).reverse := by
            rw [List.reverse_append]
    have hg1e : g1 = (cs.reverse.dropWhile chDig).reverse := by
      rw [hg1]
      conv_lhs => rw [hsplit]
      exact List.take_left' (by simp only [List.length_append]; omega)
    have hcs : cs = g1 ++ ds := by
      rw [hg1e]
      exact hsplit
    have hdall : ∀ c ∈ ds, chDig c = true := by
      intro c hc
      rw [hds] at hc
      exact List.mem_takeWhile_imp (List.mem_reverse.mp hc)
    simp only [baseOk, Bool.and_eq_true, decide_eq_true_eq] at hb
    obtain ⟨⟨⟨hblen, hbhead⟩, hblast⟩, hball⟩ := hb
    cases hg : g1 with
    | nil =>
      rw [hg] at hblen
      simp at hblen
    | cons c1 t =>
      have htne : t ≠ [] := by
        intro he
        rw [hg, he] at hblen
        simp at hblen
      obtain ⟨mid, c2, hmc⟩ : ∃ mid c2, t = mid ++ [c2] :=
        ⟨t.dropLast, t.getLast htne, (List.dropLast_append_getLast htne).symm⟩
      refine ⟨c1, mid, c2, ds, ?_, ?_, ?_, ?_, hdall⟩
      · rw [hcs, hg, hmc]
        simp
      · rw [hg] at hbhead
        simpa using hbhead
      · rw [hg, hmc] at hblast
        rw [show c1 :: (mid ++ [c2]) = (c1 :: mid) ++ [c2] by simp,
          List.getLast?_concat] at hblast
        exact hblast
      · intro c hc
        rw [hg, hmc] at hball
        simp only [List.all_eq_true] at hball
        exact hball c (by simp [hc])
  · rintro ⟨c1, mid, c2, ds, rfl, h1, h2, h3, h4⟩
    have hbase : c1 :: (mid ++ c2 :: ds) = (c1 :: (mid ++ [c2])) ++ ds := by
      simp
    have htake : (c1 :: (mid ++ c2 :: ds)).reverse.takeWhile chDig = ds.reverse := by
      rw [hbase, List.reverse_append]
      rw [takeWhile_append_all _ _ (fun c hc => h4 c (List.mem_reverse.mp hc))]
      rw [show (c1 :: (mid ++ [c2])).reverse = c2 :: (c1 :: mid).reverse from ?_]
      · rw [List.takeWhile_cons, chLet_chDig_false h2]
        simp
      · rw [show c1 :: (mid ++ [c2]) = (c1 :: mid) ++ [c2] by simp]
        simp
    have hbok : baseOk (c1 :: (mid ++ [c2])) = true := by
      simp only [baseOk, Bool.and_eq_true, decide_eq_true_eq]
      refine ⟨⟨⟨?_, ?_⟩, ?_⟩, ?_⟩
      · simp
      · simpa using h1
      · rw [show c1 :: (mid ++ [c2]) = (c1 :: mid) ++ [c2] by simp, List.getLast?_concat]
        exact h2
      · simp only [List.all_eq_true]
        intro c hc
        rcases List.mem_cons.mp hc with rfl | hc2
        · exact chLet_chMid h1
        · rcases List.mem_append.mp hc2 with hc3 | hc4
          · exact h3 c hc3
          · rw [List.mem_singleton.mp hc4]
            exact chLet_chMid h2
    unfold matchChars
    dsimp only
    rw [htake, List.reverse_reverse]
    have hg1eq : (c1 :: (mid ++ c2 :: ds)).take ((c1 :: (mid ++ c2 :: ds)).length - ds.length) =
        c1 :: (mid ++ [c2]) := by
      conv_lhs => rw [hbase]
      exact List.take_left' (by simp only [List.length_append, List.length_cons]; omega)
    rw [hg1eq, if_pos hbok]
    rfl

/-- C5: the classifier's grammar accepts a token exactly when, after
disregarding one trailing newline (which Python's `$` permits), it is a letter,
followed by an optional run of letters/digits/underscores ending in a letter,
immediately followed by an optional run of digits at the very end — so the base
is at least two characters long and may contain underscores, unlike the claim's
"run of letters, letters/digits" wording; and every non-matching token is a
recoverable classification miss reported through the success flag of the
total function `process_code` (no exception). -/
theorem c5_theorem (s : String) (lcs pcs : List String) :
    ((pyMatch s).isSome = true ↔
      ∃ c1 mid c2 ds, stripNl s.data = c1 :: (mid ++ c2 :: ds) ∧
        chLet c1 = true ∧ chLet c2 = true ∧
        (∀ c ∈ mid, chMid c = true) ∧ (∀ c ∈ ds, chDig c = true)) ∧
    ((pyMatch s).isSome = false →
      process_code s lcs pcs = ⟨false, "sprl", PySeq.int 1, "Unknown"⟩) := by
  have hiso : (pyMatch s).isSome = (matchChars (stripNl s.data)).isSome := by
    unfold pyMatch
    cases matchChars (stripNl s.data) <;> simp
  constructor
  · rw [hiso]
    exact matchChars_isSome_iff (stripNl s.data)
  · intro h
    have hnone : pyMatch s = none := Option.not_isSome_iff_eq_none.mp (by simp [h])
    unfold process_code
    rw [hnone]

/-- C5 witness: the grammar-accepted `"kb3"` decomposes as letter, letter,
digits; and the rejected `"9z"` is reported as a miss with the fallback
tuple, not an exception. -/
theorem c5_witness :
    (pyMatch "kb3").isSome = true ∧
      process_code "9z" ["kb"] [] = ⟨false, "sprl", PySeq.int 1, "Unknown"⟩ :=
  ⟨( c5_theorem "kb3" [] []).1.mpr
      ⟨'k', [], 'b', ['3'], by decide, by decide, by decide, by decide, by decide⟩,
   ( c5_theorem "9z" ["kb"] []).2 (by decide)⟩
